import Mathlib

/-!
Verification development for the olx-car-cover-scraper repository
(single source file: scraper.py).

The Python source is embedded shallowly:

* Playwright element handles (the anchors returned by
  page.query_selector_all with the selector a[href]) become the
  structure Anchor.  Each anchor carries the outcome of its
  get_attribute lookup, its rendered inner text, and the
  outcomes of the two guarded selector blocks of
  extract_listings_from_page (lines 53-58 for price, lines 60-67 for
  location).  A selector block either raises (Except.error), finds no
  element (Except.ok none) or yields the element's inner text
  (Except.ok (some s)).
* Python str.strip and str.splitlines are modelled over character
  lists (pyStrip, pySplitlines); substring tests over character lists
  (listHasInfix).
* The dict produced per matching anchor (lines 68-73) becomes the
  structure Listing; the dedup-by-href loop (lines 74-82) becomes
  dedupGo / dedupByHref; the whole of extract_listings_from_page
  becomes a filterMap followed by dedupByHref.
* The cap at the end of scrape (lines 116-117) becomes capResults,
  with Python slicing l[:n] over an arbitrary integer n modelled by
  pySliceTo (negative indices count from the end, clipped at zero).
* The loader part of scrape (lines 86-115) is modelled over a PageEnv
  describing the outcomes the browser would deliver: goto result,
  whether each networkidle wait times out, the successive
  document.body.scrollHeight measurements, and the final anchor list.
  Exception propagation uses Except; the try/except
  PlaywrightTimeoutError: pass blocks become catchTimeout, which
  swallows exactly the timeout error.
* The resource behaviour of the with sync_playwright() block is
  modelled as an event trace (scrapeTrace): browser.close() (line 115)
  runs only when no step of the block raised, while leaving the with
  block always stops Playwright; stopping Playwright closes any
  browser it launched that is still open (documented Playwright
  context-manager behaviour, modelled here by releaseCount counting a
  stop on an open browser as the release).
* save_results (lines 120-133) becomes a function from the result
  list and the (lower-cased) path suffix to an abstract FileOutput:
  either a JSON value (JsonVal, mirroring json.dumps of the list of
  dicts, with insertion order title, href, price, location preserved
  and None mapped to null) or CSV rows (header fieldnames then one
  row per result, with falsy fields rendered as the empty string,
  mirroring r.get(k) or "").
-/

namespace Scraper

deriving instance DecidableEq for Except

/-- Whitespace characters removed by Python str.strip (space, tab,
newline, carriage return, vertical tab, form feed). -/
def pyIsSpace (c : Char) : Bool :=
  c == ' ' || c == '\t' || c == '\n' || c == '\r' || c == '\x0b' || c == '\x0c'

/-- Python str.strip ( ): drop leading and trailing whitespace;
models the .strip() calls at lines 45, 56 and 65 of scraper.py. -/
def pyStrip (s : String) : String :=
  String.mk (((s.toList.dropWhile pyIsSpace).reverse.dropWhile pyIsSpace).reverse)

/-- Line-break characters for str.splitlines (modelled as newline and
carriage return, the breaks that occur in rendered anchor text). -/
def pyIsLineBreak (c : Char) : Bool :=
  c == '\n' || c == '\r'

/-- Accumulator-passing splitter behind pySplitlines; cur holds the
current line reversed. -/
def splitLinesAux : List Char → List Char → List (List Char)
  | cur, [] => [cur.reverse]
  | cur, c :: rest =>
    if pyIsLineBreak c then cur.reverse :: splitLinesAux [] rest
    else splitLinesAux (c :: cur) rest

/-- Python str.splitlines, modelled over the character list; used at
line 49 of scraper.py (only the head of the result is consumed
there). -/
def pySplitlines (s : String) : List String :=
  (splitLinesAux [] s.toList).map String.mk

/-- Bool-valued substring test on character lists: pat occurs
contiguously inside the second list. -/
def listHasInfix (pat : List Char) : List Char → Bool
  | [] => pat.isEmpty
  | c :: rest => pat.isPrefixOf (c :: rest) || listHasInfix pat rest

/-- Python substring containment pat in s. -/
def strHasSubstr (s pat : String) : Bool :=
  listHasInfix pat.toList s.toList

/-- Line 48 of scraper.py: an href qualifies as a listing link when it
contains one of the substrings /item, /i/ or /items/. -/
def isListingHref (href : String) : Bool :=
  strHasSubstr href "/item" || strHasSubstr href "/i/" || strHasSubstr href "/items/"

/-- One element handle from page.query_selector_all with selector
a[href].  href is the get_attribute result (None possible in
general); innerText the rendered text; priceLookup and locLookup the
outcomes of the two guarded selector blocks (lines 53-58 and 60-67):
raise, no element, or the found element's raw inner text. -/
structure Anchor where
  href : Option String
  innerText : String
  priceLookup : Except Unit (Option String)
  locLookup : Except Unit (Option String)
deriving DecidableEq

/-- The per-anchor dict appended at lines 68-73 of scraper.py, in
insertion order title, href, price, location. -/
structure Listing where
  title : Option String
  href : String
  price : Option String
  location : Option String
deriving DecidableEq, Repr

/-- The try/except Exception: pass pattern around one selector block:
a raised exception or a missing element both yield None, a found
element yields its stripped inner text (lines 53-58 and 60-67). -/
def lookupToField : Except Unit (Option String) → Option String
  | .error _ => none
  | .ok none => none
  | .ok (some s) => some (pyStrip s)

/-- The record built for a qualifying anchor (lines 44-45, 49-73):
text is the stripped inner text; the title is its first splitlines
entry when it is non-empty, otherwise None. -/
def candidateOf (a : Anchor) : Listing :=
  { title := if pyStrip a.innerText = "" then none
             else some ((pySplitlines (pyStrip a.innerText)).headD "")
  , href := a.href.getD ""
  , price := lookupToField a.priceLookup
  , location := lookupToField a.locLookup }

/-- The loop body of lines 43-73 for one anchor: href is
get_attribute or the empty string; an empty href is skipped (line
46), a non-qualifying href appends nothing, a qualifying href appends
the candidate record. -/
def anchorItem (a : Anchor) : Option Listing :=
  if a.href.getD "" = "" then none
  else if isListingHref (a.href.getD "") then some (candidateOf a)
  else none

/-- The dedup loop of lines 75-81 of scraper.py with its seen set
(modelled as the list of hrefs added so far): an item whose href was
already seen is skipped, otherwise it is kept and its href recorded. -/
def dedupGo (seen : List String) : List Listing → List Listing
  | [] => []
  | it :: rest =>
    if it.href ∈ seen then dedupGo seen rest
    else it :: dedupGo (it.href :: seen) rest

/-- Lines 74-82 of scraper.py: remove duplicates by href, first
occurrence wins, order preserved. -/
def dedupByHref (items : List Listing) : List Listing :=
  dedupGo [] items

/-- extract_listings_from_page (lines 25-82): build one candidate per
qualifying anchor in page order, then dedup by href. -/
def extract_listings_from_page (anchors : List Anchor) : List Listing :=
  dedupByHref (anchors.filterMap anchorItem)

/-- Python slicing l[:n] for an arbitrary integer n: a non-negative n
takes the first n elements, a negative n counts from the end and is
clipped at zero. -/
def pySliceTo (l : List Listing) (n : Int) : List Listing :=
  if 0 ≤ n then l.take n.toNat
  else l.take ((l.length : Int) + n).toNat

/-- Lines 116-117 of scraper.py: if len(results) > max_items then
results = results[:max_items]. -/
def capResults (results : List Listing) (maxItems : Int) : List Listing :=
  if (results.length : Int) > maxItems then pySliceTo results maxItems
  else results

/-- The pure data flow of scrape (lines 112-118): extract from the
materialized page, then cap. -/
def scrapeResults (anchors : List Anchor) (maxItems : Int) : List Listing :=
  capResults (extract_listings_from_page anchors) maxItems

/-- Errors the browser layer can raise: a wait timeout
(PlaywrightTimeoutError) or a hard navigation failure. -/
inductive PWError where
  | timeout : PWError
  | navFailure : PWError
deriving DecidableEq

/-- The behaviour the browser delivers during one run of scrape:
outcome of page.goto, whether the 15-second networkidle wait times
out, whether the 5-second wait of scroll iteration i times out, the
i-th document.body.scrollHeight measurement, and the anchors of the
materialized page. -/
structure PageEnv where
  gotoOutcome : Except PWError Unit
  idleWaitTimesOut : Bool
  loopIdleTimesOut : Nat → Bool
  heights : Nat → Int
  anchors : List Anchor

/-- Timeout bound of page.goto at line 91 of scraper.py. -/
def navTimeoutMs : Nat := 30000

/-- Timeout bound of the first wait_for_load_state at line 94. -/
def networkIdleTimeoutMs : Nat := 15000

/-- Timeout bound of the in-loop wait_for_load_state at line 104. -/
def loopIdleTimeoutMs : Nat := 5000

/-- Iteration bound of the scroll loop at line 100 (range(10)). -/
def maxScrollIters : Nat := 10

/-- page.wait_for_load_state with the given bound: raises the timeout
error when the page does not reach quiescence in time. -/
def waitForLoadState (_timeoutMs : Nat) (timesOut : Bool) : Except PWError Unit :=
  if timesOut then .error .timeout else .ok ()

/-- The try/except PlaywrightTimeoutError: pass blocks at lines 93-96
and 103-106: a timeout is swallowed, any other error propagates. -/
def catchTimeout (x : Except PWError Unit) : Except PWError Unit :=
  match x with
  | .error .timeout => .ok ()
  | other => other

/-- The scroll loop of lines 99-110, returning how many height
measurements it performed: each iteration waits (timeout swallowed),
measures the height, breaks when it equals the previous one, and
otherwise carries the new height into the next iteration; prev starts
at 0 and the fuel at 10. -/
def scrollLoopRun (env : PageEnv) : Nat → Int → Nat → Except PWError Nat
  | 0, _, _ => .ok 0
  | fuel + 1, prev, i =>
    match catchTimeout (waitForLoadState loopIdleTimeoutMs (env.loopIdleTimesOut i)) with
    | .error e => .error e
    | .ok _ =>
      if env.heights i = prev then .ok 1
      else
        match scrollLoopRun env fuel (env.heights i) (i + 1) with
        | .error e => .error e
        | .ok n => .ok (n + 1)

/-- Pure measurement count of the scroll loop, depending only on the
height sequence. -/
def scrollCount (heights : Nat → Int) : Nat → Int → Nat → Nat
  | 0, _, _ => 0
  | fuel + 1, prev, i =>
    if heights i = prev then 1
    else scrollCount heights fuel (heights i) (i + 1) + 1

/-- The height sequence read from index i stabilizes after exactly k
further measurements, the running previous value being prev: with
k = 0 the very next measurement repeats prev, and with k+1 the next
measurement (which becomes the new previous value) is followed by
stabilization after k more. -/
def stabFrom (heights : Nat → Int) : Int → Nat → Nat → Prop
  | prev, i, 0 => heights i = prev
  | _, i, k + 1 => stabFrom heights (heights i) (i + 1) k

/-- The body of scrape inside the with block (lines 90-118): goto
propagates any error (nothing catches it); the first networkidle wait
swallows its timeout; the scroll loop runs; then extraction and the
cap produce the result. -/
def scrapeRun (env : PageEnv) (maxItems : Int) : Except PWError (List Listing) :=
  match env.gotoOutcome with
  | .error e => .error e
  | .ok _ =>
    match catchTimeout (waitForLoadState networkIdleTimeoutMs env.idleWaitTimesOut) with
    | .error e => .error e
    | .ok _ =>
      match scrollLoopRun env maxScrollIters 0 0 with
      | .error e => .error e
      | .ok _ => .ok (capResults (extract_listings_from_page env.anchors) maxItems)

/-- Browser-session lifecycle events of one scrape invocation. -/
inductive BrowserEvent where
  | launch : BrowserEvent
  | browserClose : BrowserEvent
  | playwrightStop : BrowserEvent
deriving DecidableEq

/-- Event trace of the with sync_playwright() block of scrape (lines
86-115): the browser is launched; browser.close() at line 115 runs
only when no step of the block raised; leaving the with block always
stops Playwright (on the success path and on the exception path). -/
def scrapeTrace (bodyFails : Bool) : List BrowserEvent :=
  [BrowserEvent.launch]
    ++ (if bodyFails then [] else [BrowserEvent.browserClose])
    ++ [BrowserEvent.playwrightStop]

/-- Number of times the browser session is released along a trace,
given whether a session is currently open: browser.close() releases
it when open; stopping Playwright closes (releases) a still-open
browser it launched and is a no-op on an already closed one
(documented Playwright context-manager behaviour). -/
def releaseCount : List BrowserEvent → Bool → Nat
  | [], _ => 0
  | BrowserEvent.launch :: rest, _ => releaseCount rest true
  | BrowserEvent.browserClose :: rest, isOpen =>
    (if isOpen then 1 else 0) + releaseCount rest false
  | BrowserEvent.playwrightStop :: rest, isOpen =>
    (if isOpen then 1 else 0) + releaseCount rest false

/-- JSON values produced by json.dumps on the result list: only null,
strings, arrays and objects occur. -/
inductive JsonVal where
  | null : JsonVal
  | str : String → JsonVal
  | arr : List JsonVal → JsonVal
  | obj : List (String × JsonVal) → JsonVal

/-- An optional field serializes to null when absent. -/
def jsonOfField : Option String → JsonVal
  | none => JsonVal.null
  | some s => JsonVal.str s

/-- One result dict as json.dumps renders it, keys in the dict's
insertion order (lines 68-73): title, href, price, location. -/
def listingToJson (r : Listing) : JsonVal :=
  JsonVal.obj
    [("title", jsonOfField r.title), ("href", JsonVal.str r.href),
     ("price", jsonOfField r.price), ("location", jsonOfField r.location)]

/-- Key list of a JSON object (empty for non-objects). -/
def jsonKeys : JsonVal → List String
  | JsonVal.obj fields => fields.map Prod.fst
  | _ => []

/-- Field lookup inside a JSON object. -/
def jsonField : JsonVal → String → Option JsonVal
  | JsonVal.obj fields, k => (fields.find? (fun p => decide (p.1 = k))).map Prod.snd
  | _, _ => none

/-- The CSV fieldnames of line 127 of scraper.py. -/
def csvFieldNames : List String := ["title", "price", "location", "href"]

/-- One CSV data row (line 132): r.get(k) or "" for each fieldname,
so a missing field is rendered as the empty string. -/
def csvRowOf (r : Listing) : List String :=
  [r.title.getD "", r.price.getD "", r.location.getD "", r.href]

/-- Python str.lower on a path suffix (line 122), modelled over the
character list. -/
def pyToLower (s : String) : String :=
  String.mk (s.toList.map Char.toLower)

/-- What save_results writes: a JSON document or CSV rows. -/
inductive FileOutput where
  | jsonFile : JsonVal → FileOutput
  | csvFile : List (List String) → FileOutput

/-- save_results (lines 120-133), abstracted over the path suffix:
the .json suffix (case-insensitive, line 122) selects the JSON array
of result objects; any other suffix selects CSV with a header row
followed by one data row per result. -/
def save_results (results : List Listing) (suffix : String) : FileOutput :=
  if pyToLower suffix = ".json" then
    FileOutput.jsonFile (JsonVal.arr (results.map listingToJson))
  else
    FileOutput.csvFile (csvFieldNames :: results.map csvRowOf)

/-- The claim's own wording for the title rule (spec section 4.2 step
2): the first non-empty line of the anchor's rendered text content,
split on line breaks. -/
def specFirstNonEmptyLine (s : String) : Option String :=
  (pySplitlines s).find? (fun l => decide (l ≠ ""))

/-- Amended title rule: the first line of the whitespace-stripped
rendered text (so leading blank space and blank lines are removed
first); text that is empty after stripping yields no title. -/
def specTitleAmended (s : String) : Option String :=
  if pyStrip s = "" then none
  else some (String.mk ((pyStrip s).toList.takeWhile (fun c => !(pyIsLineBreak c))))

/-! ### Lemmas about the dedup loop -/

theorem dedupGo_sublist (l : List Listing) : ∀ seen, (dedupGo seen l).Sublist l := by
  induction l with
  | nil => intro seen; simp [dedupGo]
  | cons x rest ih =>
    intro seen
    by_cases hx : x.href ∈ seen
    · rw [dedupGo, if_pos hx]
      exact (ih seen).cons x
    · rw [dedupGo, if_neg hx]
      exact (ih (x.href :: seen)).cons₂ x

theorem dedupGo_mem_not_seen {r : Listing} :
    ∀ (l : List Listing) (seen : List String), r ∈ dedupGo seen l → r.href ∉ seen := by
  intro l
  induction l with
  | nil => intro seen h; simp [dedupGo] at h
  | cons x rest ih =>
    intro seen h
    by_cases hx : x.href ∈ seen
    · rw [dedupGo, if_pos hx] at h
      exact ih seen h
    · rw [dedupGo, if_neg hx] at h
      rcases List.mem_cons.mp h with hr | hr
      · subst hr; exact hx
      · intro hseen
        exact ih (x.href :: seen) hr (List.mem_cons_of_mem _ hseen)

theorem dedupGo_pairwise : ∀ (l : List Listing) (seen : List String),
    (dedupGo seen l).Pairwise (fun a b => a.href ≠ b.href) := by
  intro l
  induction l with
  | nil => intro seen; simp [dedupGo]
  | cons x rest ih =>
    intro seen
    by_cases hx : x.href ∈ seen
    · rw [dedupGo, if_pos hx]; exact ih seen
    · rw [dedupGo, if_neg hx]
      refine List.Pairwise.cons ?_ (ih (x.href :: seen))
      intro b hb
      have := dedupGo_mem_not_seen rest (x.href :: seen) hb
      exact fun he => this (he ▸ List.mem_cons_self _ _)

theorem dedupGo_cover : ∀ (l : List Listing) (seen : List String) (it : Listing),
    it ∈ l → it.href ∈ seen ∨ ∃ r ∈ dedupGo seen l, r.href = it.href := by
  intro l
  induction l with
  | nil => intro seen it h; simp at h
  | cons x rest ih =>
    intro seen it h
    by_cases hx : x.href ∈ seen
    · rw [dedupGo, if_pos hx]
      rcases List.mem_cons.mp h with hr | hr
      · subst hr; exact Or.inl hx
      · exact ih seen it hr
    · rw [dedupGo, if_neg hx]
      rcases List.mem_cons.mp h with hr | hr
      · subst hr
        exact Or.inr ⟨it, List.mem_cons_self _ _, rfl⟩
      · rcases ih (x.href :: seen) it hr with hs | ⟨r, hrm, hre⟩
        · rcases List.mem_cons.mp hs with he | hs'
          · exact Or.inr ⟨x, List.mem_cons_self _ _, he.symm⟩
          · exact Or.inl hs'
        · exact Or.inr ⟨r, List.mem_cons_of_mem _ hrm, hre⟩

theorem dedupGo_find : ∀ (l : List Listing) (seen : List String) (r : Listing),
    r ∈ dedupGo seen l → l.find? (fun x => decide (x.href = r.href)) = some r := by
  intro l
  induction l with
  | nil => intro seen r h; simp [dedupGo] at h
  | cons x rest ih =>
    intro seen r h
    by_cases hx : x.href ∈ seen
    · rw [dedupGo, if_pos hx] at h
      have hne : ¬ (x.href = r.href) := by
        intro he
        exact dedupGo_mem_not_seen rest seen h (he ▸ hx)
      rw [List.find?_cons_of_neg _ (by simpa using hne)]
      exact ih seen r h
    · rw [dedupGo, if_neg hx] at h
      rcases List.mem_cons.mp h with hr | hr
      · subst hr
        exact List.find?_cons_of_pos _ (by simp)
      · have hnotin := dedupGo_mem_not_seen rest (x.href :: seen) hr
        have hne : ¬ (x.href = r.href) := by
          intro he
          exact hnotin (he ▸ List.mem_cons_self _ _)
        rw [List.find?_cons_of_neg _ (by simpa using hne)]
        exact ih (x.href :: seen) r hr

theorem dedupGo_mem_append : ∀ (l1 : List Listing) (seen : List String) (x : Listing)
    (l2 : List Listing), x.href ∉ seen → (∀ y ∈ l1, y.href ≠ x.href) →
    x ∈ dedupGo seen (l1 ++ x :: l2) := by
  intro l1
  induction l1 with
  | nil =>
    intro seen x l2 hx _
    rw [List.nil_append, dedupGo, if_neg hx]
    exact List.mem_cons_self _ _
  | cons y t ih =>
    intro seen x l2 hx hall
    rw [List.cons_append]
    by_cases hy : y.href ∈ seen
    · rw [dedupGo, if_pos hy]
      exact ih seen x l2 hx (fun z hz => hall z (List.mem_cons_of_mem _ hz))
    · rw [dedupGo, if_neg hy]
      refine List.mem_cons_of_mem _ (ih (y.href :: seen) x l2 ?_ ?_)
      · intro hmem
        rcases List.mem_cons.mp hmem with he | hs
        · exact hall y (List.mem_cons_self _ _) he.symm
        · exact hx hs
      · exact fun z hz => hall z (List.mem_cons_of_mem _ hz)

/-! ### Lemmas about qualifying anchors -/

theorem isListingHref_ne_empty {h : String} (hq : isListingHref h = true) : h ≠ "" := by
  intro he
  subst he
  exact absurd hq (by decide)

theorem anchorItem_eq_some_of {a : Anchor} (hq : isListingHref (a.href.getD "") = true) :
    anchorItem a = some (candidateOf a) := by
  rw [anchorItem, if_neg (isListingHref_ne_empty hq), if_pos hq]

theorem anchorItem_spec {a : Anchor} {it : Listing} (h : anchorItem a = some it) :
    it = candidateOf a ∧ it.href = a.href.getD "" ∧ it.href ≠ ""
      ∧ isListingHref it.href = true := by
  by_cases h1 : a.href.getD "" = ""
  · rw [anchorItem, if_pos h1] at h
    exact absurd h (by simp)
  · by_cases h2 : isListingHref (a.href.getD "") = true
    · rw [anchorItem, if_neg h1, if_pos h2] at h
      have hit : it = candidateOf a := by injection h with h'; exact h'.symm
      subst hit
      exact ⟨rfl, rfl, h1, h2⟩
    · rw [anchorItem, if_neg h1, if_neg h2] at h
      exact absurd h (by simp)

/-- Claim C1: the extractor's dedup step keeps exactly one record per
distinct href, namely the first-discovered occurrence, preserving
discovery order (output is a sublist of the input, every input href is
represented, each kept record is what find-first-by-its-href returns),
and no two records in the extractor's output share the same href. -/
theorem dedup_first_occurrence :
    (∀ items : List Listing,
        (dedupByHref items).Sublist items
          ∧ (∀ it ∈ items, ∃ r ∈ dedupByHref items, r.href = it.href)
          ∧ (∀ r ∈ dedupByHref items,
              items.find? (fun x => decide (x.href = r.href)) = some r)
          ∧ (dedupByHref items).Pairwise (fun a b => a.href ≠ b.href))
      ∧ (∀ anchors : List Anchor,
          (extract_listings_from_page anchors).Pairwise (fun a b => a.href ≠ b.href)) := by
  constructor
  · intro items
    refine ⟨dedupGo_sublist items [], ?_, ?_, dedupGo_pairwise items []⟩
    · intro it hit
      rcases dedupGo_cover items [] it hit with hs | hr
      · simp at hs
      · exact hr
    · intro r hr
      exact dedupGo_find items [] r hr
  · intro anchors
    exact dedupGo_pairwise (anchors.filterMap anchorItem) []

/-- Sample candidate records for the dedup witness. -/
def itemA : Listing := { title := some "A", href := "/item/1", price := some "500", location := none }

def itemB : Listing := { title := some "B", href := "/item/1", price := none, location := none }

def itemC : Listing := { title := some "C", href := "/item/2", price := none, location := some "Delhi" }

theorem dedup_first_occurrence_witness :
    [itemA, itemB, itemC].find? (fun x => decide (x.href = itemA.href)) = some itemA :=
  (dedup_first_occurrence.1 [itemA, itemB, itemC]).2.2.1 itemA (by decide)

/-- Claim C6: no record with an empty (or missing, hence defaulted to
empty) href ever appears in the extractor's output — every output
record carries a non-empty, qualifying href — and conversely every
anchor whose href qualifies is retained: some output record carries
exactly that href, whatever the anchor's other fields (in particular
when price and location are absent). -/
theorem extract_identity_requirement (anchors : List Anchor) :
    (∀ r ∈ extract_listings_from_page anchors, r.href ≠ "" ∧ isListingHref r.href = true)
      ∧ ∀ a ∈ anchors, isListingHref (a.href.getD "") = true →
          ∃ r ∈ extract_listings_from_page anchors, r.href = a.href.getD "" := by
  constructor
  · intro r hr
    have hmem : r ∈ anchors.filterMap anchorItem :=
      (dedupGo_sublist (anchors.filterMap anchorItem) []).subset hr
    rcases List.mem_filterMap.mp hmem with ⟨a, _, ha⟩
    exact ⟨(anchorItem_spec ha).2.2.1, (anchorItem_spec ha).2.2.2⟩
  · intro a ha hq
    have hmem : candidateOf a ∈ anchors.filterMap anchorItem :=
      List.mem_filterMap.mpr ⟨a, ha, anchorItem_eq_some_of hq⟩
    rcases dedupGo_cover (anchors.filterMap anchorItem) [] (candidateOf a) hmem with hs | hr
    · simp at hs
    · exact hr

/-- Anchor for the identity witness: qualifying href, no price, no
location. -/
def aIdent : Anchor :=
  { href := some "/item/9", innerText := "Car Cover", priceLookup := .ok none, locLookup := .ok none }

theorem extract_identity_requirement_witness :
    (candidateOf aIdent).href ≠ "" ∧ isListingHref (candidateOf aIdent).href = true :=
  (extract_identity_requirement [aIdent]).1 (candidateOf aIdent) (by decide)

/-- Claim C3: a failing price lookup or location lookup on a
qualifying anchor is converted locally into a None field (never
propagated: building the candidate is total on the lookup outcome),
and a candidate whose href is set and whose price and location
lookups both fail still appears in the extractor's output — with
price and location both None — provided no earlier qualifying anchor
already claimed its href. -/
theorem lookup_failure_tolerance :
    (∀ a : Anchor,
        (a.priceLookup = .error () → (candidateOf a).price = none)
          ∧ (a.locLookup = .error () → (candidateOf a).location = none))
      ∧ ∀ (pre post : List Anchor) (a : Anchor),
          isListingHref (a.href.getD "") = true →
          a.priceLookup = .error () →
          a.locLookup = .error () →
          (∀ b ∈ pre, isListingHref (b.href.getD "") = true →
            b.href.getD "" ≠ a.href.getD "") →
          candidateOf a ∈ extract_listings_from_page (pre ++ a :: post)
            ∧ (candidateOf a).price = none ∧ (candidateOf a).location = none := by
  constructor
  · intro a
    constructor
    · intro h; simp [candidateOf, lookupToField, h]
    · intro h; simp [candidateOf, lookupToField, h]
  · intro pre post a hq hp hl hfirst
    have hprice : (candidateOf a).price = none := by simp [candidateOf, lookupToField, hp]
    have hloc : (candidateOf a).location = none := by simp [candidateOf, lookupToField, hl]
    refine ⟨?_, hprice, hloc⟩
    have hsplit : (pre ++ a :: post).filterMap anchorItem
        = pre.filterMap anchorItem ++ candidateOf a :: post.filterMap anchorItem := by
      rw [List.filterMap_append, List.filterMap_cons_some (anchorItem_eq_some_of hq)]
    rw [extract_listings_from_page, dedupByHref, hsplit]
    refine dedupGo_mem_append (pre.filterMap anchorItem) [] (candidateOf a)
      (post.filterMap anchorItem) (by simp) ?_
    intro y hy
    rcases List.mem_filterMap.mp hy with ⟨b, hb, hby⟩
    rcases anchorItem_spec hby with ⟨_, hyhref, _, hyqual⟩
    rw [hyhref]
    exact hfirst b hb (hyhref ▸ hyqual)

/-- Anchor whose price and location lookups both raise. -/
def aErr : Anchor :=
  { href := some "/item/7", innerText := "Cover", priceLookup := .error (), locLookup := .error () }

/-- An earlier qualifying anchor with a different href. -/
def aOther : Anchor :=
  { href := some "/item/5", innerText := "Other", priceLookup := .ok (some " 99 "), locLookup := .ok none }

theorem lookup_failure_tolerance_witness :
    candidateOf aErr ∈ extract_listings_from_page [aOther, aErr]
      ∧ (candidateOf aErr).price = none ∧ (candidateOf aErr).location = none :=
  lookup_failure_tolerance.2 [aOther] [] aErr (by decide) rfl rfl (by decide)

/-! ### Lemmas about the title computation -/

theorem splitLinesAux_headD (cs : List Char) : ∀ cur : List Char,
    (splitLinesAux cur cs).headD []
      = cur.reverse ++ cs.takeWhile (fun c => !(pyIsLineBreak c)) := by
  induction cs with
  | nil => intro cur; simp [splitLinesAux]
  | cons c rest ih =>
    intro cur
    by_cases hc : pyIsLineBreak c
    · simp [splitLinesAux, hc, List.takeWhile_cons]
    · simp only [splitLinesAux, hc, if_false, Bool.false_eq_true, ite_false]
      rw [ih (c :: cur)]
      simp [List.takeWhile_cons, hc]

theorem splitLinesAux_ne_nil : ∀ (cs cur : List Char), splitLinesAux cur cs ≠ [] := by
  intro cs
  induction cs with
  | nil => intro cur; simp [splitLinesAux]
  | cons c rest ih =>
    intro cur
    by_cases hc : pyIsLineBreak c
    · simp [splitLinesAux, hc]
    · simp only [splitLinesAux, hc, if_false, Bool.false_eq_true, ite_false]
      exact ih (c :: cur)

theorem pySplitlines_headD (s : String) :
    (pySplitlines s).headD ""
      = String.mk (s.toList.takeWhile (fun c => !(pyIsLineBreak c))) := by
  rw [pySplitlines]
  cases h : splitLinesAux [] s.toList with
  | nil => exact absurd h (splitLinesAux_ne_nil s.toList [])
  | cons a t =>
    have hh := splitLinesAux_headD s.toList []
    rw [h] at hh
    simp only [List.headD_cons, List.reverse_nil, List.nil_append] at hh
    simp [hh]

theorem candidateOf_title (a : Anchor) :
    (candidateOf a).title = specTitleAmended a.innerText := by
  show (if pyStrip a.innerText = "" then none
          else some ((pySplitlines (pyStrip a.innerText)).headD ""))
      = (if pyStrip a.innerText = "" then none
          else some (String.mk
            ((pyStrip a.innerText).toList.takeWhile (fun c => !(pyIsLineBreak c)))))
  by_cases h : pyStrip a.innerText = ""
  · rw [if_pos h, if_pos h]
  · rw [if_neg h, if_neg h, pySplitlines_headD]

/-- Anchor whose rendered text has a first non-empty line with
leading whitespace: the code strips the whole text first and so drops
that whitespace. -/
def aTitle : Anchor :=
  { href := some "/item/1", innerText := "  Car\nx", priceLookup := .ok none, locLookup := .ok none }

/-- Claim C7 counterexample: for the anchor aTitle (rendered text two
spaces, then Car, newline, x) the extracted record's title is Car,
while the first non-empty line of the rendered text content is the
two spaces followed by Car — so the title is not the first non-empty
line of the rendered text. -/
theorem extract_title_counterexample :
    extract_listings_from_page [aTitle]
        = [{ title := some "Car", href := "/item/1", price := none, location := none }]
      ∧ specFirstNonEmptyLine aTitle.innerText = some "  Car"
      ∧ (some "Car" : Option String) ≠ some "  Car" :=
  ⟨by decide, by decide, by decide⟩

/-- Claim C7 amended: for every record in the extractor's output
there is an anchor it came from whose href it carries, and its title
is the first line of that anchor's whitespace-stripped rendered text
(split on line breaks) — None when the text is empty after stripping;
in particular an anchor with no visible text yields a candidate with
title None rather than an error. -/
theorem extract_title_amended :
    (∀ (anchors : List Anchor) (r : Listing), r ∈ extract_listings_from_page anchors →
        ∃ a, a ∈ anchors ∧ r.href = a.href.getD ""
          ∧ r.title = specTitleAmended a.innerText)
      ∧ ∀ a : Anchor, pyStrip a.innerText = "" → (candidateOf a).title = none := by
  constructor
  · intro anchors r hr
    have hmem : r ∈ anchors.filterMap anchorItem :=
      (dedupGo_sublist (anchors.filterMap anchorItem) []).subset hr
    rcases List.mem_filterMap.mp hmem with ⟨a, ha, hsome⟩
    rcases anchorItem_spec hsome with ⟨hcand, hhref, _, _⟩
    exact ⟨a, ha, hhref, by rw [hcand, candidateOf_title]⟩
  · intro a h
    simp [candidateOf, h]

/-- Anchor with whitespace-only rendered text. -/
def aNoText : Anchor :=
  { href := some "/item/3", innerText := "  \n ", priceLookup := .ok none, locLookup := .ok none }

theorem extract_title_amended_witness : (candidateOf aNoText).title = none :=
  extract_title_amended.2 aNoText (by decide)

/-! ### Lemmas about the result cap -/

theorem capResults_natCast (l : List Listing) (n : Nat) :
    capResults l (n : Int) = l.take n := by
  rw [capResults, pySliceTo]
  by_cases h : (l.length : Int) > (n : Int)
  · rw [if_pos h, if_pos (Int.natCast_nonneg n), Int.toNat_ofNat]
  · rw [if_neg h]
    have hle : l.length ≤ n := by exact_mod_cast not_lt.mp h
    rw [List.take_of_length_le hle]

theorem capResults_zero (l : List Listing) : capResults l 0 = [] := by
  have := capResults_natCast l 0
  simpa using this

theorem capResults_negCoe (l : List Listing) (j : Nat) (hj : 0 < j) :
    capResults l (-(j : Int)) = l.take (l.length - j) := by
  rw [capResults, pySliceTo]
  have h1 : (l.length : Int) > -(j : Int) := by omega
  have h2 : ¬ ((0 : Int) ≤ -(j : Int)) := by omega
  rw [if_pos h1, if_neg h2]
  congr 1
  omega

/-- Claim C2: for a natural cap N supplied to scrape, the result is
the N-element prefix of the deduplicated candidate list (the cap is a
tail truncation applied after dedup, keeping the earliest-discovered
records), so its length is min(N, D) where D is the number of
distinct-href candidates. -/
theorem cap_after_dedup (anchors : List Anchor) (n : Nat) :
    scrapeResults anchors (n : Int) = (extract_listings_from_page anchors).take n
      ∧ (scrapeResults anchors (n : Int)).length
          = min n (extract_listings_from_page anchors).length := by
  have h := capResults_natCast (extract_listings_from_page anchors) n
  refine ⟨h, ?_⟩
  rw [scrapeResults, h, List.length_take]

/-- Claim C10: at scrape's public interface, max_items = 0 returns
the empty result set, and a negative max_items = -j returns the
deduplicated list with its last j records dropped (Python slicing),
hence has length max(0, D - j) — truncated subtraction on Nat —
rather than min(max_items, D). -/
theorem scrape_nonpositive_cap :
    (∀ anchors : List Anchor, scrapeResults anchors 0 = [])
      ∧ ∀ (anchors : List Anchor) (j : Nat), 0 < j →
          scrapeResults anchors (-(j : Int))
              = (extract_listings_from_page anchors).take
                  ((extract_listings_from_page anchors).length - j)
            ∧ (scrapeResults anchors (-(j : Int))).length
                = (extract_listings_from_page anchors).length - j := by
  constructor
  · intro anchors
    exact capResults_zero (extract_listings_from_page anchors)
  · intro anchors j hj
    have h := capResults_negCoe (extract_listings_from_page anchors) j hj
    refine ⟨h, ?_⟩
    rw [scrapeResults, h, List.length_take]
    omega

/-- Three qualifying anchors with distinct hrefs for the cap witness. -/
def capAnchors : List Anchor :=
  [{ href := some "/item/1", innerText := "A", priceLookup := .ok none, locLookup := .ok none },
   { href := some "/item/2", innerText := "B", priceLookup := .ok none, locLookup := .ok none },
   { href := some "/item/3", innerText := "C", priceLookup := .ok none, locLookup := .ok none }]

theorem scrape_nonpositive_cap_witness :
    scrapeResults capAnchors (-(1 : Int))
        = (extract_listings_from_page capAnchors).take
            ((extract_listings_from_page capAnchors).length - 1)
      ∧ (scrapeResults capAnchors (-(1 : Int))).length
          = (extract_listings_from_page capAnchors).length - 1 :=
  scrape_nonpositive_cap.2 capAnchors 1 (by decide)

/-! ### Lemmas about the loader -/

theorem catchTimeout_wait (t : Nat) (b : Bool) :
    catchTimeout (waitForLoadState t b) = .ok () := by
  cases b <;> rfl

theorem scrollLoopRun_eq_ok (env : PageEnv) : ∀ (fuel : Nat) (prev : Int) (i : Nat),
    scrollLoopRun env fuel prev i = .ok (scrollCount env.heights fuel prev i) := by
  intro fuel
  induction fuel with
  | zero => intro prev i; rfl
  | succ f ih =>
    intro prev i
    rw [scrollLoopRun, scrollCount, catchTimeout_wait]
    by_cases h : env.heights i = prev
    · simp [h]
    · simp [h, ih]

theorem scrollCount_le (heights : Nat → Int) :
    ∀ (fuel : Nat) (prev : Int) (i : Nat), scrollCount heights fuel prev i ≤ fuel := by
  intro fuel
  induction fuel with
  | zero => intro prev i; simp [scrollCount]
  | succ f ih =>
    intro prev i
    rw [scrollCount]
    by_cases h : heights i = prev
    · rw [if_pos h]; omega
    · rw [if_neg h]
      have := ih (heights i) (i + 1)
      omega

theorem scrollCount_stab (heights : Nat → Int) : ∀ (k fuel : Nat) (prev : Int) (i : Nat),
    k < fuel → stabFrom heights prev i k → (∀ j, j < k → ¬ stabFrom heights prev i j) →
    scrollCount heights fuel prev i = k + 1 := by
  intro k
  induction k with
  | zero =>
    intro fuel prev i hks hstab _
    obtain ⟨f, rfl⟩ : ∃ f, fuel = f + 1 := ⟨fuel - 1, by omega⟩
    have h : heights i = prev := hstab
    rw [scrollCount, if_pos h]
  | succ k ih =>
    intro fuel prev i hks hstab hne
    obtain ⟨f, rfl⟩ : ∃ f, fuel = f + 1 := ⟨fuel - 1, by omega⟩
    have h0 : ¬ (heights i = prev) := hne 0 (Nat.succ_pos k)
    rw [scrollCount, if_neg h0]
    have hstab' : stabFrom heights (heights i) (i + 1) k := hstab
    have hne' : ∀ j, j < k → ¬ stabFrom heights (heights i) (i + 1) j :=
      fun j hj => hne (j + 1) (by omega)
    rw [ih f (heights i) (i + 1) (by omega) hstab' hne']

/-- Claim C5: the scroll loop performs at most 10 iterations (one
height measurement each), and when the height sequence first
stabilizes at measurement k < 10 — the k-th measured height equals
the running previous height, and no earlier measurement did — the
loop performs exactly k+1 measurements and stops. -/
theorem scroll_loop_convergence (env : PageEnv) :
    (∃ n, scrollLoopRun env maxScrollIters 0 0 = .ok n ∧ n ≤ maxScrollIters)
      ∧ ∀ k, k < maxScrollIters → stabFrom env.heights 0 0 k →
          (∀ j, j < k → ¬ stabFrom env.heights 0 0 j) →
          scrollLoopRun env maxScrollIters 0 0 = .ok (k + 1) := by
  constructor
  · exact ⟨scrollCount env.heights maxScrollIters 0 0,
      scrollLoopRun_eq_ok env maxScrollIters 0 0,
      scrollCount_le env.heights maxScrollIters 0 0⟩
  · intro k hk hstab hne
    rw [scrollLoopRun_eq_ok,
      scrollCount_stab env.heights k maxScrollIters 0 0 hk hstab hne]

/-- Page whose measured height stabilizes at the third measurement
(k = 2): heights 10, 20, 20, ... -/
def envStab : PageEnv :=
  { gotoOutcome := .ok (), idleWaitTimesOut := true, loopIdleTimesOut := fun _ => true,
    heights := fun n => if n = 0 then 10 else 20, anchors := [] }

theorem scroll_loop_convergence_witness :
    scrollLoopRun envStab maxScrollIters 0 0 = .ok 3 := by
  refine (scroll_loop_convergence envStab).2 2 (by decide) ?_ ?_
  · show envStab.heights 2 = envStab.heights 1
    norm_num [envStab]
  · intro j hj
    interval_cases j
    · show ¬ (envStab.heights 0 = 0)
      norm_num [envStab]
    · show ¬ (envStab.heights 1 = envStab.heights 0)
      norm_num [envStab]

/-- Claim C4: a hard failure of the initial navigation propagates out
of scrape unchanged (fatal, not retried), whereas when navigation
succeeds the scrape always completes with the extracted, capped
results — whatever the quiescence waits did — and its outcome does
not depend on whether the 15-second wait or any 5-second in-loop wait
timed out (those timeouts are caught and swallowed). -/
theorem scrape_failure_semantics (env : PageEnv) (m : Int) :
    (∀ e, env.gotoOutcome = .error e → scrapeRun env m = .error e)
      ∧ (env.gotoOutcome = .ok () →
          scrapeRun env m = .ok (capResults (extract_listings_from_page env.anchors) m))
      ∧ ∀ (b : Bool) (f : Nat → Bool),
          scrapeRun { env with idleWaitTimesOut := b, loopIdleTimesOut := f } m
            = scrapeRun env m := by
  have herr : ∀ (env' : PageEnv) (e : PWError), env'.gotoOutcome = .error e →
      scrapeRun env' m = .error e := by
    intro env' e h
    rw [scrapeRun, h]
  have hok : ∀ env' : PageEnv, env'.gotoOutcome = .ok () →
      scrapeRun env' m = .ok (capResults (extract_listings_from_page env'.anchors) m) := by
    intro env' h
    rw [scrapeRun, h, catchTimeout_wait, scrollLoopRun_eq_ok]
  refine ⟨herr env, hok env, ?_⟩
  intro b f
  cases hg : env.gotoOutcome with
  | error e =>
    rw [herr env e hg]
    exact herr _ e rfl
  | ok u =>
    cases u
    rw [hok env hg]
    exact hok _ rfl

/-- Environment whose navigation fails hard. -/
def envNavFail : PageEnv :=
  { gotoOutcome := .error .navFailure, idleWaitTimesOut := false,
    loopIdleTimesOut := fun _ => false, heights := fun _ => 0, anchors := [] }

theorem scrape_failure_semantics_witness :
    scrapeRun envNavFail 200 = .error PWError.navFailure :=
  (scrape_failure_semantics envNavFail 200).1 PWError.navFailure rfl

/-- Claim C9: on both execution paths of scrape — the success path
and the path where a step after browser launch raises — the browser
session is released exactly once: either by browser.close() on
success, or by the guaranteed Playwright stop of the with block on
failure (the stop after a successful close releases nothing further). -/
theorem browser_released_once :
    ∀ bodyFails : Bool, releaseCount (scrapeTrace bodyFails) false = 1 := by
  intro b
  cases b <;> rfl

/-! ### Serialization -/

/-- Claim C8: with a .json suffix save_results writes the JSON array
of one object per result, each object carrying exactly the keys
title, href, price, location in that order with null for an absent
field; with any other suffix it writes CSV rows: the header
title,price,location,href followed by one row per result in which an
absent field is rendered as the empty string. -/
theorem save_results_formats (results : List Listing) :
    (save_results results ".json" = FileOutput.jsonFile (JsonVal.arr (results.map listingToJson))
        ∧ (results.map listingToJson).length = results.length
        ∧ ∀ r ∈ results,
            jsonKeys (listingToJson r) = ["title", "href", "price", "location"]
              ∧ jsonField (listingToJson r) "href" = some (JsonVal.str r.href)
              ∧ (r.title = none → jsonField (listingToJson r) "title" = some JsonVal.null)
              ∧ (r.price = none → jsonField (listingToJson r) "price" = some JsonVal.null)
              ∧ (r.location = none →
                  jsonField (listingToJson r) "location" = some JsonVal.null))
      ∧ ∀ suffix : String, pyToLower suffix ≠ ".json" →
          save_results results suffix = FileOutput.csvFile (csvFieldNames :: results.map csvRowOf)
            ∧ (results.map csvRowOf).length = results.length
            ∧ csvFieldNames = ["title", "price", "location", "href"]
            ∧ ∀ r ∈ results,
                (r.title = none → (csvRowOf r).headD "x" = "")
                  ∧ (r.price = none → (csvRowOf r).getD 1 "x" = "")
                  ∧ (r.location = none → (csvRowOf r).getD 2 "x" = "") := by
  constructor
  · refine ⟨by rw [save_results, if_pos (show pyToLower ".json" = ".json" by decide)],
      by rw [List.length_map], ?_⟩
    intro r _
    refine ⟨by simp [jsonKeys, listingToJson], ?_, ?_, ?_, ?_⟩
    · simp [jsonField, listingToJson, List.find?]
    · intro h; simp [jsonField, listingToJson, List.find?, h, jsonOfField]
    · intro h; simp [jsonField, listingToJson, List.find?, h, jsonOfField]
    · intro h; simp [jsonField, listingToJson, List.find?, h, jsonOfField]
  · intro suffix hsuf
    refine ⟨by rw [save_results, if_neg hsuf], by rw [List.length_map], rfl, ?_⟩
    intro r _
    refine ⟨?_, ?_, ?_⟩
    · intro h; simp [csvRowOf, h]
    · intro h; simp [csvRowOf, h]
    · intro h; simp [csvRowOf, h]

/-- Result list with absent fields for the serialization witness. -/
def resultsW : List Listing :=
  [{ title := none, href := "/item/1", price := none, location := some "Delhi" }]

theorem save_results_formats_witness :
    save_results resultsW ".csv" = FileOutput.csvFile (csvFieldNames :: resultsW.map csvRowOf) :=
  ((save_results_formats resultsW).2 ".csv" (by decide)).1

end Scraper
